import Mathlib

/-!
Shallow embedding of src/jsonLoader.py: the in-memory student store, its
create/find/delete operations, JSON persistence, and CSV import, together with
theorems checking the specification claims against these definitions.
-/

namespace JsonLoader

/-- A student record: the four fields of each entry of data.students
(source lines 36-42 and the import row constructors). -/
structure Student where
  id : Int
  name : String
  age : Int
  fullTime : Bool
deriving DecidableEq, Repr

/-- The in-memory store: the list data.students, insertion order preserved. -/
abbrev Store := List Student

/-- The ids of the records of a store, in store order. -/
def storeIds (s : Store) : List Int := s.map Student.id

/-- One CSV data row as produced by csv.DictReader over the four expected
columns. For each column: none = the column is absent from the CSV header
(a dict lookup then takes the default); some none = the column is in the
header but this row is too short, so DictReader filled the value with
Python None (restval); some (some s) = the row holds the string s. -/
structure Row where
  id : Option (Option String)
  name : Option (Option String)
  age : Option (Option String)
  fullTime : Option (Option String)
deriving DecidableEq, Repr

/-- r.get(key, default) on a DictReader row: the default is used only when
the column is missing from the header; the result none is Python None. -/
def rowGet (field : Option (Option String)) (dflt : String) : Option String :=
  match field with
  | none => some dflt
  | some v => v

/-- The state of the JSON data file on disk: missing, present but not valid
JSON, or decoding to a store (source lines 21-34 distinguish exactly these). -/
inductive JsonDisk
  | missing
  | corrupt
  | good (s : Store)
deriving DecidableEq, Repr

/-- File-system state seen by the program: the JSON data file and the CSV
file targeted by an import (none = no file at that path). -/
structure FS where
  json : JsonDisk
  csv : Option (List Row)
deriving DecidableEq, Repr

/-- Python exceptions that can escape the import loop: int(None) raises
TypeError and None.strip() raises AttributeError; neither is caught by the
except ValueError handlers of source lines 125-133 and 148-158. -/
inductive PyErr
  | typeError
  | attributeError
deriving DecidableEq, Repr

/-- Tail of a valid Python decimal digit group: digits with single
underscores allowed only between digits. -/
def digitTail : List Char → Bool
  | [] => true
  | '_' :: [] => false
  | '_' :: c :: rest => c.isDigit && digitTail rest
  | c :: rest => c.isDigit && digitTail rest

/-- A nonempty digit group starting with a digit (Python int literal body). -/
def digitGroup : List Char → Bool
  | [] => false
  | c :: rest => c.isDigit && digitTail rest

/-- Numeric value of a digit list, underscores removed. -/
def digitsVal (l : List Char) : Nat :=
  (l.filter (fun c => c != '_')).foldl (fun n c => 10 * n + (c.toNat - 48)) 0

/-- Python str.strip(): drop whitespace from both ends (semantics of the
.strip() calls of source lines 98, 129 and 155, and of the whitespace
tolerance of int()). -/
def pyStrip (s : String) : String :=
  String.mk (((s.data.dropWhile Char.isWhitespace).reverse.dropWhile Char.isWhitespace).reverse)

/-- Python str.lower() over the ASCII range (source line 98). -/
def pyLower (s : String) : String := String.mk (s.data.map Char.toLower)

/-- Model of Python int(string): strip surrounding whitespace, optional
sign, then a decimal digit group; none models a ValueError. -/
def pyInt (s : String) : Option Int :=
  match (pyStrip s).data with
  | '+' :: rest => if digitGroup rest then some (Int.ofNat (digitsVal rest)) else none
  | '-' :: rest => if digitGroup rest then some (-(Int.ofNat (digitsVal rest))) else none
  | rest => if digitGroup rest then some (Int.ofNat (digitsVal rest)) else none

/-- Python str() applied to the value of a DictReader field: None prints
as the text None, a string prints as itself. -/
def pyStr : Option String → String
  | none => "None"
  | some s => s

/-- The source function that parses boolean-like text (source lines 97-99):
strip, lowercase, then membership in the five truthy strings. -/
def parse_bool (val : String) : Bool :=
  (["1", "true", "t", "yes", "y"]).contains (pyLower (pyStrip val))

/-- The id value a row parses to in the import loops (source lines 125-128
and 148-151): the id field string through int(), none when Python would
set rid = None via the ValueError handler; unspecified (none) as well when
the field value is Python None, in which case the loop raises instead. -/
def rowParsedId (r : Row) : Option Int :=
  match rowGet r.id "" with
  | none => none
  | some sid => pyInt sid

/-- A row whose id, name and age values were not cut off by a short CSV
row: each is an actual string whenever its column is in the header. -/
def wellFormed (r : Row) : Prop :=
  r.id ≠ some none ∧ r.name ≠ some none ∧ r.age ≠ some none

instance (r : Row) : Decidable (wellFormed r) := by
  unfold wellFormed; infer_instance

/-- make_new_student (source lines 36-44): id is count plus one, the record
is appended and returned. -/
def make_new_student (s : Store) (name : String) (age : Int) (ft : Bool) :
    Store × Student :=
  let new : Student := ⟨(s.length : Int) + 1, name, age, ft⟩
  (s ++ [new], new)

/-- find_student (source lines 46-50): linear scan, first record whose id
matches, none when absent. -/
def find_student (s : Store) (student_id : Int) : Option Student :=
  s.find? (fun st => st.id == student_id)

/-- remove_student (source lines 52-54): keep every record whose id differs. -/
def remove_student (s : Store) (student_id : Int) : Store :=
  s.filter (fun st => st.id != student_id)

/-- load_data (source lines 21-34): reload from the JSON file; a missing
file yields the empty structure and writes it out (save_data); a corrupt
file keeps the previous in-memory data. Returns the new in-memory store
and the file system after the call. -/
def load_data (mem : Store) (fs : FS) : Store × FS :=
  match fs.json with
  | .good s => (s, fs)
  | .missing => ([], { fs with json := .good [] })
  | .corrupt => (mem, fs)

/-- save_data (source lines 68-71): overwrite the JSON file with the
current in-memory store. -/
def save_data (s : Store) (fs : FS) : FS :=
  { fs with json := .good s }

/-- max(existing_ids) if existing_ids else 0 (source line 145). -/
def listMax : List Int → Int
  | [] => 0
  | x :: xs => xs.foldl max x

/-- The id merge mode resolves for a parsed id, with the new running max:
renumber to max_id + 1 exactly when the id is missing (unparseable) or
already present in the existing id set (source lines 152-154). -/
def mergeRid (existing : List Int) (maxId : Int) : Option Int → Int × Int
  | none => (maxId + 1, maxId + 1)
  | some k => if existing.contains k then (maxId + 1, maxId + 1) else (k, maxId)

/-- The id replace mode keeps for a parsed id against the ids already
assigned in the batch: the candidate next_id exactly when the id is
missing or already taken (source lines 135-136). -/
def replRid (seen : List Int) (nextId : Int) : Option Int → Int
  | none => nextId
  | some k => if seen.contains k then nextId else k

/-- One merge-mode row of import_csv (source lines 147-163), acting on the
state (students list, existing id list, running max id, added counter):
parse the id (int(None) raises TypeError), resolve it through mergeRid,
coerce name (None.strip() raises AttributeError; empty name becomes
Student followed by the resolved id), age (unparseable becomes 0) and
full-time, then append and count. -/
def mergeStep : Store × List Int × Int × Int → Row →
    Except PyErr (Store × List Int × Int × Int)
  | (store, existing, maxId, added), r =>
    match rowGet r.id "" with
    | none => .error .typeError
    | some sid =>
      let p : Int × Int := mergeRid existing maxId (pyInt sid)
      match rowGet r.name "" with
      | none => .error .attributeError
      | some snm =>
        let nm := if pyStrip snm = "" then "Student" ++ toString p.1 else pyStrip snm
        match rowGet r.age "" with
        | none => .error .typeError
        | some sag =>
          let ag := (pyInt sag).getD 0
          let ft := parse_bool (pyStr (rowGet r.fullTime "false"))
          .ok (store ++ [⟨p.1, nm, ag, ft⟩], existing ++ [p.1], p.2, added + 1)

/-- One replace-mode row of import_csv (source lines 124-139), acting on
the state (new list, seen id list, next candidate id): parse the id,
coerce name (the placeholder uses the current candidate counter next_id,
not the finally kept id), age and full-time, keep the parsed id unless it
is missing or already seen (then use next_id), record it as seen and move
next_id past it. -/
def replaceStep : Store × List Int × Int → Row →
    Except PyErr (Store × List Int × Int)
  | (newList, seen, nextId), r =>
    match rowGet r.id "" with
    | none => .error .typeError
    | some sid =>
      match rowGet r.name "" with
      | none => .error .attributeError
      | some snm =>
        let nm := if pyStrip snm = "" then "Student" ++ toString nextId else pyStrip snm
        match rowGet r.age "" with
        | none => .error .typeError
        | some sag =>
          let ag := (pyInt sag).getD 0
          let ft := parse_bool (pyStr (rowGet r.fullTime "false"))
          let rid : Int := replRid seen nextId (pyInt sid)
          .ok (newList ++ [⟨rid, nm, ag, ft⟩], seen ++ [rid], max nextId (rid + 1))

/-- import_csv (source lines 101-165) over the file-system model: reload
first, then return 0 on a missing or empty CSV; in replace mode rebuild
the list from scratch through replaceStep, sort it by ascending id,
persist and return its length; otherwise (merge) fold mergeStep over the
rows starting from the loaded store, its id set and max id, persist and
return the added counter. An uncaught exception from a row aborts the call. -/
def import_csv (mem : Store) (fs : FS) (mode : String) :
    Except PyErr (Int × Store × FS) :=
  let (store0, fs1) := load_data mem fs
  match fs1.csv with
  | none => .ok (0, store0, fs1)
  | some rows =>
    if rows = [] then .ok (0, store0, fs1)
    else if mode = "replace" then
      match rows.foldlM replaceStep ([], [], 1) with
      | .error e => .error e
      | .ok (newList, _, _) =>
        let sortedList := newList.insertionSort (fun a b => a.id ≤ b.id)
        .ok ((newList.length : Int), sortedList, save_data sortedList fs1)
    else
      let existing := storeIds store0
      match rows.foldlM mergeStep (store0, existing, listMax existing, 0) with
      | .error e => .error e
      | .ok (store1, _, _, added) =>
        .ok (added, store1, save_data store1 fs1)

/-- A public mutating operation of the record store, for claim sequences:
create is make_new_student, delete is remove_student. -/
inductive Op
  | create (name : String) (age : Int) (ft : Bool)
  | delete (sid : Int)
deriving DecidableEq, Repr

/-- Whether an operation is a create. -/
def Op.isCreate : Op → Bool
  | .create _ _ _ => true
  | .delete _ => false

/-- Whether an operation is a delete. -/
def Op.isDelete : Op → Bool
  | .create _ _ _ => false
  | .delete _ => true

/-- Apply one operation to the store. -/
def applyOp (s : Store) : Op → Store
  | .create n a f => (make_new_student s n a f).1
  | .delete sid => remove_student s sid

/-- Run a sequence of operations from a starting store. -/
def runOps (s : Store) (ops : List Op) : Store := ops.foldl applyOp s

/-- The chain check that a list of ids is in ascending order. -/
def ascChain : List Int → Bool
  | [] => true
  | [_] => true
  | x :: y :: rest => x ≤ y && ascChain (y :: rest)

/-- A JSON value, modelling the document that json.dump writes and
json.load reads back; an object is an ordered field list with the keys
unique in every document this program writes. -/
inductive Json
  | null
  | bool (b : Bool)
  | int (n : Int)
  | str (s : String)
  | arr (elems : List Json)
  | obj (fields : List (String × Json))

/-- The JSON object save_data writes for one student (source lines 37-42
fix the key order id, name, age, full-time). -/
def encodeStudent (st : Student) : Json :=
  .obj [("id", .int st.id), ("name", .str st.name),
        ("age", .int st.age), ("full-time", .bool st.fullTime)]

/-- The whole document save_data writes: one key students holding the
record array (source lines 68-71 dump the data dict). -/
def encodeData (s : Store) : Json :=
  .obj [("students", .arr (s.map encodeStudent))]

/-- Field lookup on a JSON object, as a Python dict subscript. -/
def getField (j : Json) (k : String) : Option Json :=
  match j with
  | .obj fields => fields.lookup k
  | _ => none

/-- An integer JSON value. -/
def asInt : Json → Option Int
  | .int n => some n
  | _ => none

/-- A string JSON value. -/
def asStr : Json → Option String
  | .str s => some s
  | _ => none

/-- A boolean JSON value. -/
def asBool : Json → Option Bool
  | .bool b => some b
  | _ => none

/-- Reading one student back from the loaded document: the four field
accesses the program performs on each element of data.students. -/
def decodeStudent (j : Json) : Option Student := do
  let i ← asInt (← getField j "id")
  let nm ← asStr (← getField j "name")
  let ag ← asInt (← getField j "age")
  let ft ← asBool (← getField j "full-time")
  pure ⟨i, nm, ag, ft⟩

/-- Reading the store back from a loaded document: the data.students
access of load_data followed by per-record field reads. -/
def decodeData (j : Json) : Option Store :=
  match getField j "students" with
  | some (.arr xs) => xs.mapM decodeStudent
  | _ => none

/-- The id list 1, 2, ..., n that a pure create sequence produces. -/
def idSeq (n : Nat) : List Int := (List.range n).map (fun i : Nat => (i : Int) + 1)

/-- Constructor shorthand for concrete CSV rows in witnesses. -/
def mkRow (i n a f : Option (Option String)) : Row := ⟨i, n, a, f⟩

/-- Constructor shorthand for concrete students in witnesses. -/
def mkStu (i : Int) (nm : String) (ag : Int) (ft : Bool) : Student := ⟨i, nm, ag, ft⟩

/-- List membership agrees with the boolean contains check on ids. -/
theorem contains_iff_mem (l : List Int) (x : Int) : l.contains x = true ↔ x ∈ l := by
  simp [List.contains, List.elem_iff]

/-- A failed contains check refutes membership. -/
theorem not_mem_of_contains_false (l : List Int) (x : Int)
    (h : l.contains x = false) : x ∉ l := by
  intro hmem
  rw [(contains_iff_mem l x).mpr hmem] at h
  cases h

/-- The seed is bounded by a max fold over a list. -/
theorem foldl_max_init (xs : List Int) : ∀ a : Int, a ≤ xs.foldl max a := by
  induction xs with
  | nil => intro a; simp
  | cons y ys ih =>
    intro a
    simp only [List.foldl_cons]
    exact le_trans (le_max_left a y) (ih (max a y))

/-- Every member is bounded by a max fold over the list. -/
theorem foldl_max_mem (xs : List Int) : ∀ a y, y ∈ xs → y ≤ xs.foldl max a := by
  induction xs with
  | nil => intro a y hy; cases hy
  | cons z zs ih =>
    intro a y hy
    rcases List.mem_cons.mp hy with h | h
    · subst h
      simp only [List.foldl_cons]
      exact le_trans (le_max_right a y) (foldl_max_init zs (max a y))
    · simp only [List.foldl_cons]
      exact ih (max a z) y h

/-- Every id of a nonempty list is at most its Python max (listMax). -/
theorem mem_le_listMax (l : List Int) (x : Int) (h : x ∈ l) : x ≤ listMax l := by
  cases l with
  | nil => cases h
  | cons a as =>
    rcases List.mem_cons.mp h with h2 | h2
    · subst h2; exact foldl_max_init as x
    · exact foldl_max_mem as a x h2

/-- Reloading never touches the CSV file. -/
theorem load_data_csv (mem : Store) (fs : FS) : (load_data mem fs).2.csv = fs.csv := by
  cases fs with
  | mk j c => cases j <;> rfl

/-- C2 fails as stated: import_csv reloads the store from disk before the
CSV existence check, so with a missing CSV path it returns 0 but the store
becomes the disk state, not necessarily what memory held before the call. -/
theorem c2_counterexample :
    import_csv [mkStu 1 "A" 20 true] ⟨.good [], none⟩ "merge"
        = .ok (0, [], ⟨.good [], none⟩)
      ∧ ([] : Store) ≠ [mkStu 1 "A" 20 true] :=
  ⟨rfl, by decide⟩

/-- C2 (amended): with a missing CSV path, import_csv returns 0 and leaves
the store exactly as the initial reload from the JSON file produced it —
no record is added, removed or changed after that reload; in particular
the store is byte-for-byte the pre-call store whenever the disk already
matched memory. -/
theorem c2_missing_csv_reload_only (mem : Store) (fs : FS) (mode : String)
    (h : fs.csv = none) :
    import_csv mem fs mode = .ok (0, (load_data mem fs).1, (load_data mem fs).2)
      ∧ (fs.json = .good mem → (load_data mem fs).1 = mem) := by
  cases fs with
  | mk j c =>
    subst h
    constructor
    · cases j <;> rfl
    · intro hj
      have hj2 : j = JsonDisk.good mem := hj
      subst hj2
      rfl

/-- Witness for the amended C2 at a concrete synced state. -/
theorem c2_witness :
    ({ json := .good [mkStu 1 "A" 20 true], csv := none } : FS).csv = none
      ∧ import_csv [mkStu 1 "A" 20 true] ⟨.good [mkStu 1 "A" 20 true], none⟩ "merge"
          = .ok (0, (load_data [mkStu 1 "A" 20 true] ⟨.good [mkStu 1 "A" 20 true], none⟩).1,
                 (load_data [mkStu 1 "A" 20 true] ⟨.good [mkStu 1 "A" 20 true], none⟩).2)
      ∧ (load_data [mkStu 1 "A" 20 true] ⟨.good [mkStu 1 "A" 20 true], none⟩).1
          = [mkStu 1 "A" 20 true] :=
  ⟨rfl,
   (c2_missing_csv_reload_only [mkStu 1 "A" 20 true] ⟨.good [mkStu 1 "A" 20 true], none⟩
      "merge" rfl).1,
   (c2_missing_csv_reload_only [mkStu 1 "A" 20 true] ⟨.good [mkStu 1 "A" 20 true], none⟩
      "merge" rfl).2 rfl⟩

/-- A record appended with an id no existing record carries is the first
match of a subsequent scan for that id. -/
theorem find_student_append_of_not_mem (l : Store) (st : Student)
    (h : st.id ∉ storeIds l) : find_student (l ++ [st]) st.id = some st := by
  induction l with
  | nil => simp [find_student]
  | cons x xs ih =>
    simp only [storeIds, List.map_cons, List.mem_cons, not_or] at h
    have hx : (x.id == st.id) = false := by
      simp only [beq_eq_false_iff_ne, ne_eq]
      exact fun e => h.1 e.symm
    simp only [find_student, List.cons_append, List.find?_cons, hx]
    exact ih h.2

/-- Decoding one encoded student recovers it. -/
theorem decode_encode_student (st : Student) :
    decodeStudent (encodeStudent st) = some st := rfl

/-- C9: saving a store to a path and loading it back reproduces an
equivalent store: decoding the JSON document save_data writes yields the
same records, same field values, in the same order. -/
theorem c9_save_load_round_trip (s : Store) :
    decodeData (encodeData s) = some s := by
  have key : ∀ l : Store, (l.map encodeStudent).mapM decodeStudent = some l := by
    intro l
    induction l with
    | nil => rfl
    | cons st rest ih =>
      simp only [List.map_cons, List.mapM_cons, decode_encode_student, ih,
        Option.bind_eq_bind, Option.some_bind]
      rfl
  have hfield : getField (encodeData s) "students" = some (.arr (s.map encodeStudent)) := rfl
  simp only [decodeData, hfield, key]

/-- C10: the boolean-text parser trims and lowercases its input and is true
exactly when the result is one of the five truthy strings; everything else,
empty string included, is false, and the parser is total. -/
theorem c10_parse_bool_spec (s : String) :
    parse_bool s = true ↔
      (pyLower (pyStrip s) = "1" ∨ pyLower (pyStrip s) = "true" ∨ pyLower (pyStrip s) = "t" ∨
       pyLower (pyStrip s) = "yes" ∨ pyLower (pyStrip s) = "y") := by
  simp [parse_bool, List.contains, List.elem_iff]

/-- C6: create always succeeds, assigns id = count of existing students
plus one (count-based, not max-of-ids), appends the record to the end of
the sequence, and returns it. -/
theorem c6_create_appends_count_id (s : Store) (name : String) (age : Int) (ft : Bool) :
    make_new_student s name age ft =
      (s ++ [⟨(s.length : Int) + 1, name, age, ft⟩],
       ⟨(s.length : Int) + 1, name, age, ft⟩) := rfl

/-- C7 fails as stated: on a store already holding a record with id
count + 1, create hands out that id again and find returns the older
record, not the one create returned. -/
theorem c7_counterexample :
    find_student (make_new_student [mkStu 2 "A" 1 false] "B" 2 true).1
        (make_new_student [mkStu 2 "A" 1 false] "B" 2 true).2.id
      ≠ some (make_new_student [mkStu 2 "A" 1 false] "B" 2 true).2 := by decide

/-- C7 (amended): on every store state in which no existing record already
carries the id count + 1, create followed by find on the returned id
yields exactly the record create returned. -/
theorem c7_create_find_round_trip (s : Store) (name : String) (age : Int) (ft : Bool)
    (h : ((s.length : Int) + 1) ∉ storeIds s) :
    find_student (make_new_student s name age ft).1
        (make_new_student s name age ft).2.id
      = some (make_new_student s name age ft).2 :=
  find_student_append_of_not_mem s ⟨(s.length : Int) + 1, name, age, ft⟩ h

/-- The key id shape of a pure create run: starting from a store whose ids
are exactly 1..count, every create keeps the ids exactly 1..count. -/
theorem creates_ids (cs : List Op) (hc : ∀ o ∈ cs, o.isCreate = true) :
    ∀ s : Store, storeIds s = idSeq s.length →
      storeIds (runOps s cs) = idSeq (runOps s cs).length := by
  induction cs with
  | nil => intro s hs; simpa [runOps] using hs
  | cons c cs ih =>
    intro s hs
    have hcreate := hc c (List.mem_cons_self c cs)
    have hrest : ∀ o ∈ cs, o.isCreate = true := fun o ho => hc o (List.mem_cons_of_mem c ho)
    match c with
    | .delete sid => simp [Op.isCreate] at hcreate
    | .create n a f =>
      have hstep : runOps s (Op.create n a f :: cs) = runOps (applyOp s (.create n a f)) cs := by
        simp [runOps]
      rw [hstep]
      apply ih hrest
      simp only [applyOp, make_new_student, storeIds, List.map_append, List.map_cons,
        List.map_nil, List.length_append, List.length_cons, List.length_nil]
      rw [storeIds] at hs
      rw [hs]
      simp [idSeq, List.range_succ]

/-- The id list 1..n has no duplicates. -/
theorem idSeq_nodup (n : Nat) : (idSeq n).Nodup := by
  have hinj : Function.Injective (fun i : Nat => (i : Int) + 1) := by
    intro i j h
    have h2 : (i : Int) + 1 = (j : Int) + 1 := h
    omega
  unfold idSeq
  exact List.Nodup.map hinj (List.nodup_range n)

/-- Deletes only remove records, so they preserve id distinctness. -/
theorem deletes_nodup (ds : List Op) (hd : ∀ o ∈ ds, o.isDelete = true) :
    ∀ s : Store, (storeIds s).Nodup → (storeIds (runOps s ds)).Nodup := by
  induction ds with
  | nil => intro s hs; simpa [runOps] using hs
  | cons d ds ih =>
    intro s hs
    have hdel := hd d (List.mem_cons_self d ds)
    have hrest : ∀ o ∈ ds, o.isDelete = true := fun o ho => hd o (List.mem_cons_of_mem d ho)
    match d with
    | .create n a f => simp [Op.isDelete] at hdel
    | .delete sid =>
      have hstep : runOps s (Op.delete sid :: ds) = runOps (applyOp s (.delete sid)) ds := by
        simp [runOps]
      rw [hstep]
      apply ih hrest
      apply List.Nodup.sublist _ hs
      exact List.Sublist.map Student.id (List.filter_sublist s)

/-- C1 fails as stated: create ids come from the record count, so a create
after a delete can duplicate a surviving id (here two records end with id 2). -/
theorem c1_counterexample :
    ¬ (storeIds (runOps [] [Op.create "a" 1 false, Op.create "b" 2 false,
        Op.delete 1, Op.create "c" 3 false])).Nodup := by decide

/-- C1 (amended): over every sequence of create and delete operations from
the empty store in which no create follows a delete, the store ids are
pairwise distinct at every observation point. -/
theorem c1_unique_ids_creates_then_deletes (cs ds p q : List Op)
    (hc : ∀ o ∈ cs, o.isCreate = true) (hd : ∀ o ∈ ds, o.isDelete = true)
    (hsplit : p ++ q = cs ++ ds) :
    (storeIds (runOps [] p)).Nodup := by
  rcases List.append_eq_append_iff.mp hsplit with ⟨a, hcs, hq⟩ | ⟨a, hp, hds⟩
  · have hcp : ∀ o ∈ p, o.isCreate = true := fun o ho =>
      hc o (hcs ▸ List.mem_append_left a ho)
    rw [creates_ids p hcp [] rfl]
    exact idSeq_nodup _
  · have had : ∀ o ∈ a, o.isDelete = true := fun o ho =>
      hd o (hds ▸ List.mem_append_left q ho)
    rw [hp]
    have hrun : runOps [] (cs ++ a) = runOps (runOps [] cs) a := by
      simp [runOps, List.foldl_append]
    rw [hrun]
    apply deletes_nodup a had
    rw [creates_ids cs hc [] rfl]
    exact idSeq_nodup _

/-- Witness for the amended C1 at a concrete creates-then-deletes sequence. -/
theorem c1_witness :
    (storeIds (runOps [] [Op.create "a" 1 false, Op.create "b" 2 false,
        Op.delete 1])).Nodup :=
  c1_unique_ids_creates_then_deletes
    [Op.create "a" 1 false, Op.create "b" 2 false] [Op.delete 1]
    [Op.create "a" 1 false, Op.create "b" 2 false, Op.delete 1] []
    (by decide) (by decide) rfl

/-- Witness for the amended C7 at a concrete store. -/
theorem c7_witness :
    ((([mkStu 1 "A" 1 false] : Store).length : Int) + 1) ∉ storeIds [mkStu 1 "A" 1 false] ∧
    find_student (make_new_student [mkStu 1 "A" 1 false] "B" 2 true).1
        (make_new_student [mkStu 1 "A" 1 false] "B" 2 true).2.id
      = some (make_new_student [mkStu 1 "A" 1 false] "B" 2 true).2 :=
  ⟨by decide, c7_create_find_round_trip [mkStu 1 "A" 1 false] "B" 2 true (by decide)⟩

/-- Unfolded form of a merge step on a row whose id, name and age fields
hold strings. -/
theorem mergeStep_eq (store : Store) (existing : List Int) (maxId added : Int)
    (r : Row) (sid snm sag : String) (hid : rowGet r.id "" = some sid)
    (hnm : rowGet r.name "" = some snm) (hag : rowGet r.age "" = some sag) :
    mergeStep (store, existing, maxId, added) r =
      .ok (store ++ [⟨(mergeRid existing maxId (pyInt sid)).1,
             if pyStrip snm = "" then "Student" ++ toString (mergeRid existing maxId (pyInt sid)).1
             else pyStrip snm,
             (pyInt sag).getD 0, parse_bool (pyStr (rowGet r.fullTime "false"))⟩],
           existing ++ [(mergeRid existing maxId (pyInt sid)).1],
           (mergeRid existing maxId (pyInt sid)).2, added + 1) := by
  simp only [mergeStep, hid, hnm, hag]

/-- Unfolded form of a replace step on a row whose id, name and age fields
hold strings. -/
theorem replaceStep_eq (newList : Store) (seen : List Int) (nextId : Int)
    (r : Row) (sid snm sag : String) (hid : rowGet r.id "" = some sid)
    (hnm : rowGet r.name "" = some snm) (hag : rowGet r.age "" = some sag) :
    replaceStep (newList, seen, nextId) r =
      .ok (newList ++ [⟨replRid seen nextId (pyInt sid),
             if pyStrip snm = "" then "Student" ++ toString nextId else pyStrip snm,
             (pyInt sag).getD 0, parse_bool (pyStr (rowGet r.fullTime "false"))⟩],
           seen ++ [replRid seen nextId (pyInt sid)],
           max nextId (replRid seen nextId (pyInt sid) + 1)) := by
  simp only [replaceStep, hid, hnm, hag]

/-- The replace-mode id resolution either takes the candidate next_id or
keeps a parsed id that is not yet taken. -/
theorem replRid_cases (seen : List Int) (nextId : Int) (o : Option Int) :
    replRid seen nextId o = nextId ∨
      (∃ k, o = some k ∧ seen.contains k = false ∧ replRid seen nextId o = k) := by
  cases o with
  | none => left; rfl
  | some k =>
    cases hc : seen.contains k with
    | true => left; simp only [replRid]; rw [hc]; simp
    | false => right; exact ⟨k, rfl, hc, by simp only [replRid]; rw [hc]; simp⟩

/-- The merge-mode id resolution either renumbers to max_id + 1 (also
advancing the running max) or keeps a parsed id not yet in the id set
(leaving the running max unchanged). -/
theorem mergeRid_cases (existing : List Int) (maxId : Int) (o : Option Int) :
    mergeRid existing maxId o = (maxId + 1, maxId + 1) ∨
      (∃ k, o = some k ∧ existing.contains k = false ∧
        mergeRid existing maxId o = (k, maxId)) := by
  cases o with
  | none => left; rfl
  | some k =>
    cases hc : existing.contains k with
    | true => left; simp only [mergeRid]; rw [hc]; simp
    | false => right; exact ⟨k, rfl, hc, by simp only [mergeRid]; rw [hc]; simp⟩

/-- A successful replace step appends one record whose id is either the
candidate next_id or a parsed id not yet seen, records it as seen, and
moves next_id past it. -/
theorem replaceStep_ok_shape {st st2 : Store × List Int × Int} {r : Row}
    (h : replaceStep st r = .ok st2) :
    ∃ rec : Student,
      st2 = (st.1 ++ [rec], st.2.1 ++ [rec.id], max st.2.2 (rec.id + 1)) ∧
      (rec.id = st.2.2 ∨ st.2.1.contains rec.id = false) := by
  obtain ⟨newList, seen, nextId⟩ := st
  cases hid : rowGet r.id "" with
  | none => simp [replaceStep, hid] at h
  | some sid =>
    cases hnm : rowGet r.name "" with
    | none => simp [replaceStep, hid, hnm] at h
    | some snm =>
      cases hag : rowGet r.age "" with
      | none => simp [replaceStep, hid, hnm, hag] at h
      | some sag =>
        rw [replaceStep_eq newList seen nextId r sid snm sag hid hnm hag] at h
        have hst2 := ((Except.ok.injEq _ _).mp h).symm
        subst hst2
        refine ⟨_, rfl, ?_⟩
        rcases replRid_cases seen nextId (pyInt sid) with hr | ⟨k, hk, hc, hr⟩
        · left; exact hr
        · right; rw [hr]; exact hc

/-- A successful merge step appends one record whose id is either
max_id + 1 (advancing the running max) or the row's parsed id when it is
not yet in the id set (keeping the running max), and extends the id set
with it. -/
theorem mergeStep_ok_shape {st st2 : Store × List Int × Int × Int} {r : Row}
    (h : mergeStep st r = .ok st2) :
    ∃ rec : Student,
      st2 = (st.1 ++ [rec], st.2.1 ++ [rec.id], st2.2.2.1, st.2.2.2 + 1) ∧
      ((rec.id = st.2.2.1 + 1 ∧ st2.2.2.1 = st.2.2.1 + 1) ∨
       (rowParsedId r = some rec.id ∧ st.2.1.contains rec.id = false ∧
        st2.2.2.1 = st.2.2.1)) := by
  obtain ⟨store, existing, maxId, added⟩ := st
  cases hid : rowGet r.id "" with
  | none => simp [mergeStep, hid] at h
  | some sid =>
    cases hnm : rowGet r.name "" with
    | none => simp [mergeStep, hid, hnm] at h
    | some snm =>
      cases hag : rowGet r.age "" with
      | none => simp [mergeStep, hid, hnm, hag] at h
      | some sag =>
        rw [mergeStep_eq store existing maxId added r sid snm sag hid hnm hag] at h
        have hst2 := ((Except.ok.injEq _ _).mp h).symm
        subst hst2
        have hparsed : rowParsedId r = pyInt sid := by simp [rowParsedId, hid]
        rcases mergeRid_cases existing maxId (pyInt sid) with hr | ⟨k, hk, hc, hr⟩
        · refine ⟨_, rfl, Or.inl ⟨?_, ?_⟩⟩
          · show (mergeRid existing maxId (pyInt sid)).1 = maxId + 1
            rw [hr]
          · show (mergeRid existing maxId (pyInt sid)).2 = maxId + 1
            rw [hr]
        · refine ⟨_, rfl, Or.inr ⟨?_, ?_, ?_⟩⟩
          · show rowParsedId r = some (mergeRid existing maxId (pyInt sid)).1
            rw [hparsed, hr, hk]
          · show existing.contains (mergeRid existing maxId (pyInt sid)).1 = false
            rw [hr]; exact hc
          · show (mergeRid existing maxId (pyInt sid)).2 = maxId
            rw [hr]

/-- A successful Except bind factors through a successful first component. -/
theorem except_bind_ok {α β : Type} {e : Except PyErr α} {f : α → Except PyErr β}
    {b : β} (h : (e >>= f) = .ok b) : ∃ a, e = .ok a ∧ f a = .ok b := by
  cases e with
  | error err =>
    have h2 : (Except.error err : Except PyErr β) = .ok b := h
    exact Except.noConfusion h2
  | ok a => exact ⟨a, rfl, h⟩

/-- Replace-mode fold invariant: from a state whose seen ids are exactly
the ids of the accumulated list, are distinct, and all lie below the
candidate counter, a successful fold ends with distinct ids. -/
theorem replace_fold_nodup : ∀ (rows : List Row) (st : Store × List Int × Int),
    st.2.1 = storeIds st.1 → st.2.1.Nodup → (∀ x ∈ st.2.1, x < st.2.2) →
    ∀ st2, List.foldlM replaceStep st rows = .ok st2 → (storeIds st2.1).Nodup := by
  intro rows
  induction rows with
  | nil =>
    intro st h1 h2 h3 st2 hfold
    have h4 : Except.ok st = Except.ok st2 := hfold
    have h5 := (Except.ok.injEq _ _).mp h4
    subst h5
    rw [h1] at h2
    exact h2
  | cons r rows ih =>
    intro st h1 h2 h3 st2 hfold
    rw [List.foldlM_cons] at hfold
    obtain ⟨st1, hstep, hrest⟩ := except_bind_ok hfold
    obtain ⟨rec, hshape, hdisj⟩ := replaceStep_ok_shape hstep
    subst hshape
    have hnotmem : rec.id ∉ st.2.1 := by
      rcases hdisj with hEq | hC
      · intro hmem
        have := h3 _ hmem
        rw [hEq] at this
        exact lt_irrefl _ this
      · exact not_mem_of_contains_false _ _ hC
    refine ih (st.1 ++ [rec], st.2.1 ++ [rec.id], max st.2.2 (rec.id + 1)) ?_ ?_ ?_ st2 hrest
    · show st.2.1 ++ [rec.id] = storeIds (st.1 ++ [rec])
      simp [storeIds, h1]
    · show (st.2.1 ++ [rec.id]).Nodup
      simp [List.nodup_append, h2, hnotmem]
    · show ∀ x ∈ st.2.1 ++ [rec.id], x < max st.2.2 (rec.id + 1)
      intro x hx
      rcases List.mem_append.mp hx with hx | hx
      · exact lt_of_lt_of_le (h3 x hx) (le_max_left _ _)
      · rw [List.mem_singleton.mp hx]
        exact lt_of_lt_of_le (lt_add_one _) (le_max_right _ _)

/-- Merge-mode fold invariant: when every parsed row id is bounded by M0,
from a state whose id set is exactly the ids of the accumulated store,
distinct and bounded by the running max (itself at least M0), a
successful fold ends with distinct ids. -/
theorem merge_fold_nodup (M0 : Int) : ∀ (rows : List Row),
    (∀ r ∈ rows, ∀ k, rowParsedId r = some k → k ≤ M0) →
    ∀ st : Store × List Int × Int × Int,
      st.2.1 = storeIds st.1 → st.2.1.Nodup → (∀ x ∈ st.2.1, x ≤ st.2.2.1) →
      M0 ≤ st.2.2.1 →
      ∀ st2, List.foldlM mergeStep st rows = .ok st2 → (storeIds st2.1).Nodup := by
  intro rows
  induction rows with
  | nil =>
    intro hrows st h1 h2 h3 h4 st2 hfold
    have h5 : Except.ok st = Except.ok st2 := hfold
    have h6 := (Except.ok.injEq _ _).mp h5
    subst h6
    rw [h1] at h2
    exact h2
  | cons r rows ih =>
    intro hrows st h1 h2 h3 h4 st2 hfold
    rw [List.foldlM_cons] at hfold
    obtain ⟨st1, hstep, hrest⟩ := except_bind_ok hfold
    obtain ⟨rec, hshape, hdisj⟩ := mergeStep_ok_shape hstep
    have e1 : st1.1 = st.1 ++ [rec] := by rw [hshape]
    have e2 : st1.2.1 = st.2.1 ++ [rec.id] := by rw [hshape]
    have hrowsrest : ∀ r2 ∈ rows, ∀ k, rowParsedId r2 = some k → k ≤ M0 :=
      fun r2 hr2 => hrows r2 (List.mem_cons_of_mem r hr2)
    have hmx : (rec.id = st.2.2.1 + 1 ∧ st1.2.2.1 = st.2.2.1 + 1) ∨
        (rec.id ≤ M0 ∧ st.2.1.contains rec.id = false ∧ st1.2.2.1 = st.2.2.1) := by
      rcases hdisj with h | ⟨hp, hc, hm⟩
      · exact Or.inl h
      · exact Or.inr ⟨hrows r (List.mem_cons_self r rows) rec.id hp, hc, hm⟩
    have hnotmem : rec.id ∉ st.2.1 := by
      rcases hmx with ⟨hEq, _⟩ | ⟨_, hC, _⟩
      · intro hmem
        have := h3 _ hmem
        rw [hEq] at this
        omega
      · exact not_mem_of_contains_false _ _ hC
    refine ih hrowsrest st1 ?_ ?_ ?_ ?_ st2 hrest
    · rw [e1, e2, h1]
      simp [storeIds]
    · rw [e2]
      simp [List.nodup_append, h2, hnotmem]
    · rw [e2]
      intro x hx
      rcases List.mem_append.mp hx with hx | hx
      · rcases hmx with ⟨_, hm⟩ | ⟨_, _, hm⟩
        · rw [hm]; exact le_trans (h3 x hx) (by omega)
        · rw [hm]; exact h3 x hx
      · rw [List.mem_singleton.mp hx]
        rcases hmx with ⟨hEq, hm⟩ | ⟨hle, _, hm⟩
        · rw [hm, hEq]
        · rw [hm]; exact le_trans hle h4
    · rcases hmx with ⟨_, hm⟩ | ⟨_, _, hm⟩
      · rw [hm]; omega
      · rw [hm]; exact h4

/-- import_csv in replace mode on a nonempty CSV is the replace fold,
sorted by id and persisted. -/
theorem import_csv_replace_eq (mem : Store) (fs : FS) (rows : List Row)
    (hcsv : fs.csv = some rows) (hne : rows ≠ []) :
    import_csv mem fs "replace" =
      match List.foldlM replaceStep ([], [], 1) rows with
      | .error e => .error e
      | .ok (newList, _, _) =>
        .ok ((newList.length : Int), newList.insertionSort (fun a b => a.id ≤ b.id),
             save_data (newList.insertionSort (fun a b => a.id ≤ b.id))
               (load_data mem fs).2) := by
  rcases hld : load_data mem fs with ⟨s0, fs1⟩
  have hc0 := load_data_csv mem fs
  rw [hld] at hc0
  have hc1 : fs1.csv = some rows := by rw [hc0]; exact hcsv
  simp only [import_csv, hld, hc1, if_neg hne]
  rw [if_pos trivial]

/-- import_csv in merge mode on a nonempty CSV is the merge fold from the
loaded store, persisted, returning the added count. -/
theorem import_csv_merge_eq (mem : Store) (fs : FS) (rows : List Row)
    (hcsv : fs.csv = some rows) (hne : rows ≠ []) :
    import_csv mem fs "merge" =
      match List.foldlM mergeStep ((load_data mem fs).1, storeIds (load_data mem fs).1,
          listMax (storeIds (load_data mem fs).1), 0) rows with
      | .error e => .error e
      | .ok (store1, _, _, added) =>
        .ok (added, store1, save_data store1 (load_data mem fs).2) := by
  rcases hld : load_data mem fs with ⟨s0, fs1⟩
  have hc0 := load_data_csv mem fs
  rw [hld] at hc0
  have hc1 : fs1.csv = some rows := by rw [hc0]; exact hcsv
  simp only [import_csv, hld, hc1, if_neg hne]
  rw [if_neg (by decide)]

/-- C3 fails as stated for merge mode: the running max is not advanced
past parsed ids that are kept, so a later renumbering can collide with an
id imported earlier in the same batch (here two records end with id 3,
although the loaded store had distinct ids). -/
theorem c3_counterexample :
    (storeIds (load_data [] ⟨.good [mkStu 1 "A" 1 false],
        some [mkRow (some (some "3")) (some (some "B")) (some (some "2")) (some (some "no")),
              mkRow (some (some "1")) (some (some "C")) (some (some "2")) (some (some "no")),
              mkRow (some (some "1")) (some (some "D")) (some (some "2")) (some (some "no"))]⟩).1).Nodup
    ∧ import_csv [] ⟨.good [mkStu 1 "A" 1 false],
        some [mkRow (some (some "3")) (some (some "B")) (some (some "2")) (some (some "no")),
              mkRow (some (some "1")) (some (some "C")) (some (some "2")) (some (some "no")),
              mkRow (some (some "1")) (some (some "D")) (some (some "2")) (some (some "no"))]⟩ "merge"
      = .ok (3, [mkStu 1 "A" 1 false, mkStu 3 "B" 2 false, mkStu 2 "C" 2 false, mkStu 3 "D" 2 false],
          ⟨.good [mkStu 1 "A" 1 false, mkStu 3 "B" 2 false, mkStu 2 "C" 2 false, mkStu 3 "D" 2 false],
           some [mkRow (some (some "3")) (some (some "B")) (some (some "2")) (some (some "no")),
                 mkRow (some (some "1")) (some (some "C")) (some (some "2")) (some (some "no")),
                 mkRow (some (some "1")) (some (some "D")) (some (some "2")) (some (some "no"))]⟩)
    ∧ ¬ (storeIds [mkStu 1 "A" 1 false, mkStu 3 "B" 2 false,
          mkStu 2 "C" 2 false, mkStu 3 "D" 2 false]).Nodup :=
  ⟨by decide, by rfl, by decide⟩

/-- C3 (amended): after a completed replace-mode import of a nonempty CSV
the resulting ids are pairwise distinct; after a completed merge-mode
CSV import of a nonempty file whose freshly loaded store has distinct
ids, the resulting ids are again pairwise distinct provided every row id
that parses is at most the loaded store's maximum id. -/
theorem c3_import_ids_nodup (mem : Store) (fs : FS) (rows : List Row)
    (hcsv : fs.csv = some rows) (hne : rows ≠ []) :
    (∀ n s2 fs2, import_csv mem fs "replace" = .ok (n, s2, fs2) → (storeIds s2).Nodup)
    ∧ ((∀ r ∈ rows, ∀ k, rowParsedId r = some k →
          k ≤ listMax (storeIds (load_data mem fs).1)) →
       (storeIds (load_data mem fs).1).Nodup →
       ∀ n s2 fs2, import_csv mem fs "merge" = .ok (n, s2, fs2) → (storeIds s2).Nodup) := by
  constructor
  · intro n s2 fs2 h
    rw [import_csv_replace_eq mem fs rows hcsv hne] at h
    cases hfold : List.foldlM replaceStep ([], [], 1) rows with
    | error e => rw [hfold] at h; exact Except.noConfusion h
    | ok st2 =>
      rw [hfold] at h
      obtain ⟨newList, seen, nx⟩ := st2
      have h2 := (Except.ok.injEq _ _).mp h
      have hs2 : s2 = newList.insertionSort (fun a b => a.id ≤ b.id) :=
        (congrArg (fun t => t.2.1) h2).symm
      have hnodup : (storeIds newList).Nodup :=
        replace_fold_nodup rows ([], [], 1) rfl List.nodup_nil
          (by intro x hx; cases hx) (newList, seen, nx) hfold
      rw [hs2]
      have hperm : (storeIds (newList.insertionSort (fun a b => a.id ≤ b.id))).Perm
          (storeIds newList) :=
        List.Perm.map Student.id (List.perm_insertionSort _ newList)
      exact hperm.symm.nodup hnodup
  · intro hbound hnodup0 n s2 fs2 h
    rw [import_csv_merge_eq mem fs rows hcsv hne] at h
    cases hfold : List.foldlM mergeStep ((load_data mem fs).1, storeIds (load_data mem fs).1,
        listMax (storeIds (load_data mem fs).1), 0) rows with
    | error e => rw [hfold] at h; exact Except.noConfusion h
    | ok st2 =>
      rw [hfold] at h
      obtain ⟨store1, ex, mx, added⟩ := st2
      have h2 := (Except.ok.injEq _ _).mp h
      have hs2 : s2 = store1 := (congrArg (fun t => t.2.1) h2).symm
      rw [hs2]
      exact merge_fold_nodup (listMax (storeIds (load_data mem fs).1)) rows hbound
        ((load_data mem fs).1, storeIds (load_data mem fs).1,
          listMax (storeIds (load_data mem fs).1), 0)
        rfl hnodup0 (fun x hx => mem_le_listMax _ x hx) (le_refl _)
        (store1, ex, mx, added) hfold

/-- Witness for the amended C3: both halves applied at concrete imports. -/
theorem c3_witness :
    (storeIds [mkStu 1 "W" 1 true]).Nodup
    ∧ (storeIds [mkStu 1 "A" 1 false, mkStu 2 "B" 4 false]).Nodup :=
  ⟨(c3_import_ids_nodup []
      ⟨.good [], some [mkRow none (some (some "W")) (some (some "1")) (some (some "y"))]⟩
      [mkRow none (some (some "W")) (some (some "1")) (some (some "y"))]
      rfl (by decide)).1 1 [mkStu 1 "W" 1 true]
      ⟨.good [mkStu 1 "W" 1 true],
       some [mkRow none (some (some "W")) (some (some "1")) (some (some "y"))]⟩ (by rfl),
   (c3_import_ids_nodup []
      ⟨.good [mkStu 1 "A" 1 false],
       some [mkRow (some (some "x")) (some (some "B")) (some (some "4")) (some (some "no"))]⟩
      [mkRow (some (some "x")) (some (some "B")) (some (some "4")) (some (some "no"))]
      rfl (by decide)).2
      (by
        intro r hr k hk
        rw [List.mem_singleton.mp hr] at hk
        exact Option.noConfusion hk)
      (by decide) 1 [mkStu 1 "A" 1 false, mkStu 2 "B" 4 false]
      ⟨.good [mkStu 1 "A" 1 false, mkStu 2 "B" 4 false],
       some [mkRow (some (some "x")) (some (some "B")) (some (some "4")) (some (some "no"))]⟩
      (by rfl)⟩

/-- Binding a successful Except value applies the continuation. -/
theorem except_ok_bind {α β : Type} (a : α) (f : α → Except PyErr β) :
    (Except.ok a >>= f) = f a := rfl

/-- C4: a merge-mode import of two rows both carrying id 5 into a loaded
store that contains id 5 assigns the first colliding row the id
max_existing_id + 1 and the second max_existing_id + 2: the running max
advances across the batch instead of being recomputed per row. -/
theorem c4_merge_collision_sequential (mem : Store) (fs : FS) (r1 r2 : Row)
    (s1 s2 n1 n2 a1 a2 : String)
    (hcsv : fs.csv = some [r1, r2])
    (hid1 : rowGet r1.id "" = some s1) (hp1 : pyInt s1 = some 5)
    (hnm1 : rowGet r1.name "" = some n1) (hag1 : rowGet r1.age "" = some a1)
    (hid2 : rowGet r2.id "" = some s2) (hp2 : pyInt s2 = some 5)
    (hnm2 : rowGet r2.name "" = some n2) (hag2 : rowGet r2.age "" = some a2)
    (hmem5 : (5 : Int) ∈ storeIds (load_data mem fs).1) :
    (import_csv mem fs "merge").map (fun t => (t.1, storeIds t.2.1))
      = .ok (2, storeIds (load_data mem fs).1 ++
          [listMax (storeIds (load_data mem fs).1) + 1,
           listMax (storeIds (load_data mem fs).1) + 2]) := by
  rw [import_csv_merge_eq mem fs [r1, r2] hcsv (by simp)]
  have hc1 : (storeIds (load_data mem fs).1).contains (5 : Int) = true :=
    (contains_iff_mem _ _).mpr hmem5
  have hr1 : mergeRid (storeIds (load_data mem fs).1)
      (listMax (storeIds (load_data mem fs).1)) (pyInt s1)
      = (listMax (storeIds (load_data mem fs).1) + 1,
         listMax (storeIds (load_data mem fs).1) + 1) := by
    rw [hp1]; simp only [mergeRid]; rw [hc1]; simp
  have hstep1 := mergeStep_eq (load_data mem fs).1 (storeIds (load_data mem fs).1)
    (listMax (storeIds (load_data mem fs).1)) 0 r1 s1 n1 a1 hid1 hnm1 hag1
  rw [hr1] at hstep1
  dsimp only at hstep1
  have hc2 : (storeIds (load_data mem fs).1
      ++ [listMax (storeIds (load_data mem fs).1) + 1]).contains (5 : Int) = true :=
    (contains_iff_mem _ _).mpr (List.mem_append_left _ hmem5)
  have hr2 : mergeRid (storeIds (load_data mem fs).1
        ++ [listMax (storeIds (load_data mem fs).1) + 1])
      (listMax (storeIds (load_data mem fs).1) + 1) (pyInt s2)
      = (listMax (storeIds (load_data mem fs).1) + 2,
         listMax (storeIds (load_data mem fs).1) + 2) := by
    rw [hp2]; simp only [mergeRid]; rw [hc2]
    simp only [if_true, Prod.mk.injEq]
    constructor <;> omega
  have hstep2 := mergeStep_eq
    ((load_data mem fs).1 ++ [⟨listMax (storeIds (load_data mem fs).1) + 1,
        if pyStrip n1 = "" then
          "Student" ++ toString (listMax (storeIds (load_data mem fs).1) + 1)
        else pyStrip n1,
        (pyInt a1).getD 0, parse_bool (pyStr (rowGet r1.fullTime "false"))⟩])
    (storeIds (load_data mem fs).1 ++ [listMax (storeIds (load_data mem fs).1) + 1])
    (listMax (storeIds (load_data mem fs).1) + 1) (0 + 1) r2 s2 n2 a2 hid2 hnm2 hag2
  rw [hr2] at hstep2
  dsimp only at hstep2
  rw [List.foldlM_cons, hstep1, except_ok_bind, List.foldlM_cons, hstep2, except_ok_bind,
    List.foldlM_nil]
  dsimp only [pure, Except.pure, Except.map]
  simp only [Except.ok.injEq, Prod.mk.injEq, storeIds, List.map_append, List.map_cons,
    List.map_nil, List.append_assoc, List.cons_append, List.nil_append]
  norm_num

/-- Witness for C4 at a concrete store holding id 5 and two id-5 rows. -/
theorem c4_witness :
    (import_csv [] ⟨.good [mkStu 5 "E" 1 false],
        some [mkRow (some (some "5")) (some (some "F")) (some (some "3")) (some (some "y")),
              mkRow (some (some "5")) (some (some "G")) (some (some "4")) (some (some "n"))]⟩
      "merge").map (fun t => (t.1, storeIds t.2.1))
      = .ok (2, storeIds (load_data [] ⟨.good [mkStu 5 "E" 1 false],
          some [mkRow (some (some "5")) (some (some "F")) (some (some "3")) (some (some "y")),
                mkRow (some (some "5")) (some (some "G")) (some (some "4")) (some (some "n"))]⟩).1 ++
          [listMax (storeIds (load_data [] ⟨.good [mkStu 5 "E" 1 false],
             some [mkRow (some (some "5")) (some (some "F")) (some (some "3")) (some (some "y")),
                   mkRow (some (some "5")) (some (some "G")) (some (some "4")) (some (some "n"))]⟩).1) + 1,
           listMax (storeIds (load_data [] ⟨.good [mkStu 5 "E" 1 false],
             some [mkRow (some (some "5")) (some (some "F")) (some (some "3")) (some (some "y")),
                   mkRow (some (some "5")) (some (some "G")) (some (some "4")) (some (some "n"))]⟩).1) + 2]) :=
  c4_merge_collision_sequential []
    ⟨.good [mkStu 5 "E" 1 false],
     some [mkRow (some (some "5")) (some (some "F")) (some (some "3")) (some (some "y")),
           mkRow (some (some "5")) (some (some "G")) (some (some "4")) (some (some "n"))]⟩
    (mkRow (some (some "5")) (some (some "F")) (some (some "3")) (some (some "y")))
    (mkRow (some (some "5")) (some (some "G")) (some (some "4")) (some (some "n")))
    "5" "5" "F" "G" "3" "4" rfl rfl (by decide) rfl rfl rfl (by decide) rfl rfl (by decide)

/-- A field value that was not cut off is an actual string after the dict
lookup with a default. -/
theorem rowGet_some_of_ne (f : Option (Option String)) (d : String)
    (h : f ≠ some none) : ∃ s, rowGet f d = some s := by
  match f with
  | none => exact ⟨d, rfl⟩
  | some none => exact absurd rfl h
  | some (some s) => exact ⟨s, rfl⟩

/-- C5 fails as stated: a CSV row shorter than the header leaves the age
value as Python None, and int(None) raises a TypeError that the
ValueError handler does not catch, so the import raises. -/
theorem c5_counterexample :
    import_csv [] ⟨.good [],
        some [mkRow (some (some "1")) (some (some "Bob")) (some none) (some none)]⟩ "merge"
      = .error .typeError := by rfl

/-- C5 (amended): for every CSV data row whose id, name and age values are
actual strings (possibly empty; in particular the row is not shorter than
the header), field coercion in both import modes is best-effort per field
and never fatal: an unparseable age becomes 0, full-time goes through the
boolean-text parser, and the step appends exactly one record without
raising. -/
theorem c5_row_coercion_best_effort (r : Row) (sag : String)
    (hag : rowGet r.age "" = some sag)
    (hid : r.id ≠ some none) (hnm : r.name ≠ some none) :
    (∀ st : Store × List Int × Int × Int,
      (mergeStep st r).map
          (fun t => (t.1.length, t.1.getLast?.map Student.age,
            t.1.getLast?.map Student.fullTime))
        = .ok (st.1.length + 1, some ((pyInt sag).getD 0),
               some (parse_bool (pyStr (rowGet r.fullTime "false")))))
    ∧ (∀ st : Store × List Int × Int,
      (replaceStep st r).map
          (fun t => (t.1.length, t.1.getLast?.map Student.age,
            t.1.getLast?.map Student.fullTime))
        = .ok (st.1.length + 1, some ((pyInt sag).getD 0),
               some (parse_bool (pyStr (rowGet r.fullTime "false"))))) := by
  obtain ⟨sid, hids⟩ := rowGet_some_of_ne r.id "" hid
  obtain ⟨snm, hnms⟩ := rowGet_some_of_ne r.name "" hnm
  constructor
  · intro st
    obtain ⟨store, ex, mx, ad⟩ := st
    rw [mergeStep_eq store ex mx ad r sid snm sag hids hnms hag]
    simp [Except.map, List.getLast?_concat]
  · intro st
    obtain ⟨nl, seen, nx⟩ := st
    rw [replaceStep_eq nl seen nx r sid snm sag hids hnms hag]
    simp [Except.map, List.getLast?_concat]

/-- Witness for the amended C5 at a concrete row with parseable fields. -/
theorem c5_witness :
    (mergeStep (([] : Store), ([] : List Int), (0 : Int), (0 : Int))
        (mkRow (some (some "7")) (some (some "Ann")) (some (some "12")) (some (some "yes")))).map
          (fun t => (t.1.length, t.1.getLast?.map Student.age,
            t.1.getLast?.map Student.fullTime))
      = .ok (1, some 12, some true)
    ∧ (replaceStep (([] : Store), ([] : List Int), (1 : Int))
        (mkRow (some (some "7")) (some (some "Ann")) (some (some "12")) (some (some "yes")))).map
          (fun t => (t.1.length, t.1.getLast?.map Student.age,
            t.1.getLast?.map Student.fullTime))
      = .ok (1, some 12, some true) :=
  ⟨(c5_row_coercion_best_effort
      (mkRow (some (some "7")) (some (some "Ann")) (some (some "12")) (some (some "yes")))
      "12" rfl (by decide) (by decide)).1 ([], [], 0, 0),
   (c5_row_coercion_best_effort
      (mkRow (some (some "7")) (some (some "Ann")) (some (some "12")) (some (some "yes")))
      "12" rfl (by decide) (by decide)).2 ([], [], 1)⟩

/-- A replace fold over well-formed rows succeeds and produces one record
per row. -/
theorem replace_fold_ok : ∀ (rows : List Row), (∀ r ∈ rows, wellFormed r) →
    ∀ st : Store × List Int × Int, ∃ st2,
      List.foldlM replaceStep st rows = .ok st2
      ∧ st2.1.length = st.1.length + rows.length := by
  intro rows
  induction rows with
  | nil => intro h st; exact ⟨st, rfl, by simp⟩
  | cons r rows ih =>
    intro h st
    obtain ⟨nl, seen, nx⟩ := st
    obtain ⟨hid, hnm, hag⟩ := h r (List.mem_cons_self r rows)
    obtain ⟨sid, hids⟩ := rowGet_some_of_ne r.id "" hid
    obtain ⟨snm, hnms⟩ := rowGet_some_of_ne r.name "" hnm
    obtain ⟨sag, hags⟩ := rowGet_some_of_ne r.age "" hag
    have hstep := replaceStep_eq nl seen nx r sid snm sag hids hnms hags
    obtain ⟨st2, hfold, hlen⟩ := ih (fun r2 hr2 => h r2 (List.mem_cons_of_mem r hr2))
      (nl ++ [⟨replRid seen nx (pyInt sid),
         if pyStrip snm = "" then "Student" ++ toString nx else pyStrip snm,
         (pyInt sag).getD 0, parse_bool (pyStr (rowGet r.fullTime "false"))⟩],
       seen ++ [replRid seen nx (pyInt sid)], max nx (replRid seen nx (pyInt sid) + 1))
    refine ⟨st2, ?_, ?_⟩
    · rw [List.foldlM_cons, hstep, except_ok_bind]
      exact hfold
    · rw [hlen]
      simp only [List.length_append, List.length_cons, List.length_nil]
      omega

/-- A pairwise nondecreasing id list passes the ascending chain check. -/
theorem ascChain_of_pairwise : ∀ l : List Int, l.Pairwise (· ≤ ·) → ascChain l = true := by
  intro l
  induction l with
  | nil => intro h; rfl
  | cons x xs ih =>
    intro h
    rcases List.pairwise_cons.mp h with ⟨h1, h2⟩
    cases xs with
    | nil => rfl
    | cons y ys =>
      show ascChain (x :: y :: ys) = true
      simp only [ascChain, Bool.and_eq_true]
      exact ⟨decide_eq_true (h1 y (List.mem_cons_self y ys)), ih h2⟩

/-- Sorting a store by id yields an ascending id chain. -/
theorem insertionSort_ids_ascChain (l : Store) :
    ascChain (storeIds (l.insertionSort (fun a b => a.id ≤ b.id))) = true := by
  haveI : IsTotal Student (fun a b => a.id ≤ b.id) := ⟨fun a b => le_total a.id b.id⟩
  haveI : IsTrans Student (fun a b => a.id ≤ b.id) := ⟨fun a b c h1 h2 => le_trans h1 h2⟩
  have hs := List.sorted_insertionSort (fun a b : Student => a.id ≤ b.id) l
  exact ascChain_of_pairwise _ (List.pairwise_map.mpr hs)

/-- C8 fails as stated: a replace-mode import of a CSV containing a row
shorter than the header raises a TypeError instead of returning a count. -/
theorem c8_counterexample :
    import_csv [] ⟨.good [],
        some [mkRow (some (some "2")) (some (some "Al")) (some none) (some none)]⟩ "replace"
      = .error .typeError := by rfl

/-- C8 (amended): after a replace-mode import of a CSV with at least one
data row in which every row supplies actual string values for the id,
name and age columns (no row shorter than the header), the store contains
exactly one record per input row, its ids form an ascending chain, the
store is persisted to the JSON file, and the returned count equals the
number of input rows. -/
theorem c8_replace_import_full (mem : Store) (fs : FS) (rows : List Row)
    (hcsv : fs.csv = some rows) (hne : rows ≠ [])
    (hwf : ∀ r ∈ rows, wellFormed r) :
    (import_csv mem fs "replace").map
        (fun t => (t.1, t.2.1.length, ascChain (storeIds t.2.1),
          decide (t.2.2.json = JsonDisk.good t.2.1)))
      = .ok ((rows.length : Int), rows.length, true, true) := by
  rw [import_csv_replace_eq mem fs rows hcsv hne]
  obtain ⟨st2, hfold, hlen⟩ := replace_fold_ok rows hwf ([], [], 1)
  obtain ⟨newList, seen, nx⟩ := st2
  rw [hfold]
  dsimp only [Except.map]
  dsimp only at hlen
  simp only [List.length_nil, Nat.zero_add] at hlen
  simp only [Except.ok.injEq, Prod.mk.injEq]
  refine ⟨?_, ?_, ?_, ?_⟩
  · rw [hlen]
  · rw [(List.perm_insertionSort _ newList).length_eq]
    exact hlen
  · exact insertionSort_ids_ascChain newList
  · exact decide_eq_true rfl

/-- Witness for the amended C8 at a concrete two-row replace import. -/
theorem c8_witness :
    (import_csv [] ⟨.good [mkStu 9 "Z" 2 true],
        some [mkRow none (some (some "")) (some (some "20")) (some (some "yes")),
              mkRow (some (some "2")) (some (some "B")) (some (some "x")) (some (some "no"))]⟩
      "replace").map
        (fun t => (t.1, t.2.1.length, ascChain (storeIds t.2.1),
          decide (t.2.2.json = JsonDisk.good t.2.1)))
      = .ok (2, 2, true, true) :=
  c8_replace_import_full []
    ⟨.good [mkStu 9 "Z" 2 true],
     some [mkRow none (some (some "")) (some (some "20")) (some (some "yes")),
           mkRow (some (some "2")) (some (some "B")) (some (some "x")) (some (some "no"))]⟩
    [mkRow none (some (some "")) (some (some "20")) (some (some "yes")),
     mkRow (some (some "2")) (some (some "B")) (some (some "x")) (some (some "no"))]
    rfl (by decide) (by decide)

end JsonLoader
